import Mathlib

/-!
Verification development for the lexical-analysis engine of
`csbot/plugins/lisp.py`: the lazily-built character-transition automaton
(`LexCharDict`), the lexeme classifier with cache (`LexemeDict`), the
line splitter (`ProgramDict`) and the composed tokenizer (`lex` together
with `Lisp._build_program_dict` / `Lisp._lex`).

The Python data is embedded shallowly:
- a `defaultdict` tree node becomes an inductive tree (`LexCharDict`) whose
  children are an association list keyed by character (Python dicts keep
  insertion order and never hold duplicate keys; lookups take the first
  match);
- the `_tok` attribute, which in Python holds either `None`, a `TokenType`
  value, or one of the internal marker strings `'unmatched_string'`,
  `'unfinished_symbol'`, `'.'`, becomes the sum type `PyTok`;
- in-place mutation (create-on-miss, the seed-table overwrite, cache
  insertion) becomes explicit state passing: functions return the updated
  tree/dict alongside their result;
- exceptions (`ValueError` from `check_type`) become `Except LexError`;
- the lazy generator created by `ProgramDict.__missing__` becomes the list
  of lexeme strings it has yet to process, cached per program string and
  consumed one element per `next`.
-/

namespace Lisp

/-- The `TokenType` enum of the source, variants kept verbatim. -/
inductive TokenType where
  | UNKNOWN
  | NAME
  | SYMBOL
  | STRING
  | L_PAREN
  | R_PAREN
  | L_BRACKET
  | R_BRACKET
  | NUMBER
  | REAL
  | IMAGINARY
  deriving DecidableEq

/-- The possible values of the Python `_tok` attribute: `None`, a
`TokenType` member, or a `str` (the internal markers). -/
inductive PyTok where
  | pynone
  | toktype (t : TokenType)
  | pystr (s : String)
  deriving DecidableEq

/-- `Token = namedtuple('Token', ['token_type', 'lexeme'])`.  The
`token_type` field holds whatever `match._tok` was (the source never
restricts it to a `TokenType`, see `LexemeDict.__missing__`). -/
structure Token where
  token_type : PyTok
  lexeme : String
  deriving DecidableEq

/-- The `ValueError` raised by `LexemeDict.check_type`, carrying the
marker string and the offending lexeme (the two values formatted into the
message). -/
inductive LexError where
  | lexerError (tok : String) (lexm : String)
  deriving DecidableEq

/-- The double-quote character. -/
def dq : Char := Char.ofNat 34

/-- The apostrophe (single-quote) character. -/
def sq : Char := Char.ofNat 39

/-- The backslash character. -/
def bs : Char := Char.ofNat 92

/-- Models the success of Python `int(k)` on a single character, i.e. `k`
is a decimal digit.  (Restricted to ASCII digits; the spec's non-goals
exclude Unicode numeric grammars.) -/
def pyIntOk (c : Char) : Bool := c.isDigit

/-- `string.whitespace` from the Python standard library:
space, tab, linefeed, carriage return, vertical tab, formfeed. -/
def PY_WHITESPACE : List Char :=
  [Char.ofNat 32, Char.ofNat 9, Char.ofNat 10, Char.ofNat 13,
   Char.ofNat 11, Char.ofNat 12]

/-- `SYMBOLS = ('(', ')', '[', ']')`. -/
def SYMBOLS : List Char := ['(', ')', '[', ']']

/-- `SYMBOL_LUT`, in the source's key order. -/
def SYMBOL_LUT : List (String × TokenType) :=
  [("(", .L_PAREN), (")", .R_PAREN), ("[", .L_BRACKET), ("]", .R_BRACKET)]

/-- One node of the `LexCharDict` tree: the `_char` attribute (`None` only
for the root, which is never read), the `_tok` attribute, and the mapping
from next character to child node. -/
inductive LexCharDict where
  | mk (char : Option String) (tok : PyTok) (children : List (Char × LexCharDict))

def LexCharDict.char : LexCharDict → Option String
  | .mk c _ _ => c

def LexCharDict.tok : LexCharDict → PyTok
  | .mk _ t _ => t

def LexCharDict.children : LexCharDict → List (Char × LexCharDict)
  | .mk _ _ cs => cs

/-- The display string of a node, as read by `word += match._char`.  Only
the root carries `none` and the root's `_char` is never appended. -/
def LexCharDict.charD (t : LexCharDict) : String := t.char.getD ""

/-- First-match lookup in a children association list (Python dict
lookup). -/
def lookupChild : List (Char × LexCharDict) → Char → Option LexCharDict
  | [], _ => none
  | (c, d) :: rest, k => if c = k then some d else lookupChild rest k

/-- Replace the entry for key `k` (Python in-place mutation of the child
object held in the dict). -/
def setChild : List (Char × LexCharDict) → Char → LexCharDict →
    List (Char × LexCharDict)
  | [], k, d => [(k, d)]
  | (c, x) :: rest, k, d =>
      if c = k then (c, d) :: rest else (c, x) :: setChild rest k d

/-- The four children pre-populated on the escape (`\`) node by
`LexCharDict.__missing__`: `"` displays `"`, `n` displays a newline, `t`
displays a tab, `\` displays `\`; each carries the `'unmatched_string'`
marker (`n`/`t` inherit it, `"` is built with it, `\` has it assigned). -/
def escChildren : List (Char × LexCharDict) :=
  [(dq, .mk (some (String.singleton dq)) (.pystr "unmatched_string") []),
   ('n', .mk (some (String.singleton (Char.ofNat 10))) (.pystr "unmatched_string") []),
   ('t', .mk (some (String.singleton (Char.ofNat 9))) (.pystr "unmatched_string") []),
   (bs, .mk (some (String.singleton bs)) (.pystr "unmatched_string") [])]

/-- `LexCharDict.__missing__(k)`: the node synthesized for character `k`
under a parent whose `_tok` is `ptok`.  `d = self.__class__(k, self._tok)`
seeds the child with `_char = k` and the parent's `_tok`; the branches
then adjust `d` exactly as the source does. -/
def mkMissing (ptok : PyTok) (k : Char) : LexCharDict :=
  if k = dq then
    if ptok = .pynone then .mk (some "") (.pystr "unmatched_string") []
    else if ptok = .pystr "unmatched_string" then .mk (some "") (.toktype .STRING) []
    else .mk (some (String.singleton k)) ptok []
  else if k = bs ∧ ptok = .pystr "unmatched_string" then
    .mk (some "") ptok escChildren
  else if k = sq then
    if ptok = .pynone then .mk (some "") (.pystr "unfinished_symbol") []
    else .mk (some (String.singleton k)) ptok []
  else if ptok = .pystr "unfinished_symbol" then
    .mk (some (String.singleton k)) (.toktype .SYMBOL) []
  else if ptok = .pynone ∨ ptok = .pystr "." ∨ ptok = .toktype .REAL ∨
      ptok = .toktype .NUMBER then
    if pyIntOk k then
      if ptok = .pynone then .mk (some (String.singleton k)) (.toktype .NUMBER) []
      else if ptok = .pystr "." then .mk (some (String.singleton k)) (.toktype .REAL) []
      else .mk (some (String.singleton k)) ptok []
    else if k = 'i' ∧ (ptok = .toktype .NUMBER ∨ ptok = .toktype .REAL) then
      .mk (some (String.singleton k)) (.toktype .IMAGINARY) []
    else if ptok = .toktype .NUMBER then
      if k = '.' then .mk (some (String.singleton k)) (.pystr ".") []
      else .mk (some (String.singleton k)) (.toktype .NAME) []
    else .mk (some (String.singleton k)) (.toktype .NAME) []
  else if ptok = .toktype .IMAGINARY then
    .mk (some (String.singleton k)) (.toktype .NAME) []
  else .mk (some (String.singleton k)) ptok []

/-- The walk of `LexemeDict.__missing__`: starting at node `t`, advance
through the characters, using the existing child when present and
synthesizing (and inserting) one otherwise, appending each visited
child's `_char` to the word.  Returns the final node's `_tok`, the
accumulated word, and the tree after its in-place growth. -/
def walk : LexCharDict → List Char → PyTok × String × LexCharDict
  | t, [] => (t.tok, "", t)
  | .mk ch tok cs, k :: rest =>
    match lookupChild cs k with
    | some d =>
      let r := walk d rest
      (r.1, d.charD ++ r.2.1, .mk ch tok (setChild cs k r.2.2))
    | none =>
      let d := mkMissing tok k
      let r := walk d rest
      (r.1, d.charD ++ r.2.1, .mk ch tok (cs ++ [(k, r.2.2)]))

/-- One word of `build_lexchar_dict`: walk `match = match[letter]` through
the word, then overwrite the final node's `_tok`. -/
def insertWord : LexCharDict → List Char → TokenType → LexCharDict
  | .mk ch _ cs, [], newTok => .mk ch (.toktype newTok) cs
  | .mk ch tok cs, k :: rest, newTok =>
    match lookupChild cs k with
    | some d => .mk ch tok (setChild cs k (insertWord d rest newTok))
    | none => .mk ch tok (cs ++ [(k, insertWord (mkMissing tok k) rest newTok)])

/-- `build_lexchar_dict(**words)`. -/
def build_lexchar_dict (words : List (String × TokenType)) : LexCharDict :=
  words.foldl (fun m p => insertWord m p.1.toList p.2) (.mk none .pynone [])

/-- First-match lookup in the lexeme cache. -/
def lookupTok : List (String × Token) → String → Option Token
  | [], _ => none
  | (w, t) :: rest, lexm => if w = lexm then some t else lookupTok rest lexm

/-- `LexemeDict`: the automaton (`_matches`) plus the lexeme-to-token
cache (the dict's own entries). -/
structure LexemeDict where
  _matches : LexCharDict
  cache : List (String × Token)

/-- `LexemeDict[lexm]`: cache hit returns the stored token unchanged;
otherwise `__missing__` walks the automaton, accumulates the word, and
`check_type` raises a `ValueError` when the final `_tok` is a `str`
(an internal marker).  On an error the tree growth performed by the walk
persists but no cache entry is added; on success the token is cached. -/
def LexemeDict.lookup (ld : LexemeDict) (lexm : String) :
    Except LexError Token × LexemeDict :=
  match lookupTok ld.cache lexm with
  | some t => (.ok t, ld)
  | none =>
    let r := walk ld._matches lexm.toList
    match r.1 with
    | .pystr s => (.error (.lexerError s lexm), ⟨r.2.2, ld.cache⟩)
    | tk => (.ok ⟨tk, r.2.1⟩, ⟨r.2.2, ld.cache ++ [(lexm, ⟨tk, r.2.1⟩)]⟩)

/-- The scanner state of the `_gen` generator inside
`ProgramDict.__missing__`: the accumulating `word`, the `string` and
`escape` flags, and the lexemes yielded so far. -/
structure SplitState where
  word : String
  string : Bool
  escape : Bool
  out : List String
  deriving DecidableEq

/-- One loop iteration of `_gen` over `letter`.  Note the source's `"`
branch toggles `string` only when `escape` is unset and leaves `escape`
unchanged, while the in-string branch sets `escape` exactly when the
letter is a backslash. -/
def splitStep (symbols : List Char) (st : SplitState) (letter : Char) :
    SplitState :=
  if letter = dq then
    { st with string := (if st.escape then st.string else !st.string),
              word := st.word.push letter }
  else if st.string then
    { st with word := st.word.push letter, escape := letter = bs }
  else if letter ∈ PY_WHITESPACE ∨ letter ∈ symbols then
    let out₂ := st.out ++ (if st.word = "" then [] else [st.word]) ++
      (if letter ∈ symbols then [String.singleton letter] else [])
    { st with out := out₂, word := "" }
  else
    { st with word := st.word.push letter }

/-- The trailing `if word: yield word` of `_gen`. -/
def splitFinish (st : SplitState) : List String :=
  st.out ++ (if st.word = "" then [] else [st.word])

/-- The full sequence of lexeme strings yielded by `_gen` for line `s`. -/
def splitLine (symbols : List Char) (s : String) : List String :=
  splitFinish (s.toList.foldl (splitStep symbols) ⟨"", false, false, []⟩)

/-- `ProgramDict`: the symbol list, the shared `LexemeDict`, and the
per-program cache of generators; a cached generator is represented by the
list of lexeme strings it has yet to classify and yield. -/
structure ProgramDict where
  symbols : List Char
  lexd : LexemeDict
  gens : List (String × List String)

/-- First-match lookup in the generator cache. -/
def lookupGen : List (String × List String) → String → Option (List String)
  | [], _ => none
  | (w, g) :: rest, s => if w = s then some g else lookupGen rest s

/-- Replace the cached generator state for program `s`. -/
def setGen : List (String × List String) → String → List String →
    List (String × List String)
  | [], s, g => [(s, g)]
  | (w, x) :: rest, s, g =>
      if w = s then (w, g) :: rest else (w, x) :: setGen rest s g

/-- `ProgramDict.__missing__`: on first access for program `s` create the
generator (whose pending yields are the lexemes of `s`) and cache it; a
later access returns the very same cached generator object. -/
def ProgramDict.ensure (pd : ProgramDict) (s : String) : ProgramDict :=
  match lookupGen pd.gens s with
  | some _ => pd
  | none => { pd with gens := pd.gens ++ [(s, splitLine pd.symbols s)] }

/-- `next()` on the generator cached for program `s`: classify the next
pending lexeme through the shared `LexemeDict`.  `none` models
`StopIteration` (the generator is exhausted, or was closed by a raised
`ValueError`, which empties its pending list). -/
def ProgramDict.next (pd : ProgramDict) (s : String) :
    Option (Except LexError Token) × ProgramDict :=
  match lookupGen pd.gens s with
  | none => (none, pd)
  | some [] => (none, pd)
  | some (l :: rest) =>
    let r := pd.lexd.lookup l
    match r.1 with
    | .ok t => (some (.ok t), { pd with lexd := r.2, gens := setGen pd.gens s rest })
    | .error e => (some (.error e), { pd with lexd := r.2, gens := setGen pd.gens s [] })

/-- Iterate the generator for `s` at most `fuel` times, collecting the
tokens yielded before the first failure (if any): the observable outcome
of a caller looping over `lex(program_dict, s)`. -/
def drain : ProgramDict → String → Nat → List Token × Option LexError × ProgramDict
  | pd, _, 0 => ([], none, pd)
  | pd, s, fuel + 1 =>
    match pd.next s with
    | (none, pd₂) => ([], none, pd₂)
    | (some (.ok t), pd₂) =>
      let r := drain pd₂ s fuel
      (t :: r.1, r.2.1, r.2.2)
    | (some (.error e), pd₂) => ([], some e, pd₂)

/-- `lex(program_dict, s)` is `program_dict[s]`: it ensures the generator
for `s` exists (creating and caching it on first access) and hands it to
the caller; the handle to the returned generator is the string `s`
itself. -/
def lex (pd : ProgramDict) (s : String) : ProgramDict := pd.ensure s

/-- `Lisp._build_program_dict`: the seeded automaton, an empty
`LexemeDict` cache, the symbol tuple, an empty program cache. -/
def Lisp_build_program_dict : ProgramDict :=
  ⟨SYMBOLS, ⟨build_lexchar_dict SYMBOL_LUT, []⟩, []⟩

/-- `Lisp._lex(s)` followed by full iteration of the returned generator:
the tokens yielded before any failure, and the failure if one occurred.
A fresh `ProgramDict` is built per call, exactly as `Lisp._lex` does. -/
def tokenize (s : String) : List Token × Option LexError :=
  let pd := lex Lisp_build_program_dict s
  let r := drain pd s (splitLine SYMBOLS s).length
  (r.1, r.2.1)

/-! Verification apparatus: observing the automaton tree. -/

/-- Follow `p` through existing transitions only (no synthesis): the node
reached from `t` by the character path `p`, when all transitions are
already materialized. -/
def resolve : LexCharDict → List Char → Option LexCharDict
  | t, [] => some t
  | .mk _ _ cs, k :: rest =>
    match lookupChild cs k with
    | some d => resolve d rest
    | none => none

/-- `t₂` extends `t₁`: every node reachable in `t₁` is still reachable by
the same path in `t₂`, with its `_char` and `_tok` unchanged. -/
def Grows (t₁ t₂ : LexCharDict) : Prop :=
  ∀ p n₁, resolve t₁ p = some n₁ →
    ∃ n₂, resolve t₂ p = some n₂ ∧ n₂.char = n₁.char ∧ n₂.tok = n₁.tok

/-- A sequence of classification operations against one `LexemeDict`. -/
def classifyAll (ld : LexemeDict) (ops : List String) : LexemeDict :=
  ops.foldl (fun d l => (d.lookup l).2) ld

/-- Every string-typed (internal) marker reachable in the tree is one of
the three the source ever writes: `unmatched_string`,
`unfinished_symbol`, `.`. -/
def MarkersOK (t : LexCharDict) : Prop :=
  ∀ p n, resolve t p = some n → ∀ s, n.tok = .pystr s →
    s = "unmatched_string" ∨ s = "unfinished_symbol" ∨ s = "."

/-- The `LexemeDict` of a freshly built `ProgramDict` (seeded automaton,
empty cache), as `Lisp._build_program_dict` constructs it. -/
def freshLD : LexemeDict := Lisp_build_program_dict.lexd

/-! Named concrete inputs used by the theorems (spelled with `dq`/`sq`/`bs`
to keep quote and backslash characters explicit). -/

/-- The line `"unterminated` (opening quote, never closed). -/
def unterminatedLine : String := String.singleton dq ++ "unterminated"

/-- The line `"hello"`. -/
def helloLine : String := String.singleton dq ++ "hello" ++ String.singleton dq

/-- The line `"a\"b\nc\td\\e"`: one string lexeme exercising all four
escape forms. -/
def escLine : String :=
  String.singleton dq ++ "a" ++ String.singleton bs ++ String.singleton dq ++
  "b" ++ String.singleton bs ++ "n" ++ "c" ++ String.singleton bs ++ "t" ++
  "d" ++ String.singleton bs ++ String.singleton bs ++ "e" ++ String.singleton dq

/-- The resolved text of `escLine`: `a"b`, newline, `c`, tab, `d\e`. -/
def escLineResolved : String :=
  "a" ++ String.singleton dq ++ "b" ++ String.singleton (Char.ofNat 10) ++
  "c" ++ String.singleton (Char.ofNat 9) ++ "d" ++ String.singleton bs ++ "e"

/-- The lexeme `"a\xb"`: a string containing the unsupported escape `\x`. -/
def escXLexeme : String :=
  String.singleton dq ++ "a" ++ String.singleton bs ++ "xb" ++ String.singleton dq

/-- The line `1"`: a digit followed by a double quote. -/
def oneQuoteLine : String := "1".push dq

/-- The line `''`: an apostrophe followed by an apostrophe. -/
def sqsqLine : String := String.singleton sq ++ String.singleton sq

/-- The line `"\"" x`: an opened string, an escaped quote, a closing
quote, then ` x`. -/
def c5Line : String :=
  String.singleton dq ++ String.singleton bs ++ String.singleton dq ++
  String.singleton dq ++ " x"

/-- The first lexeme the claim about the splitter would predict for
`c5Line`: the string `"\""` closed at its second unescaped quote. -/
def c5ClaimedString : String :=
  String.singleton dq ++ String.singleton bs ++ String.singleton dq ++
  String.singleton dq

/-- A tokenizing session in which the generator for the line `(` has been
created and fully consumed. -/
def pdConsumed : ProgramDict :=
  (drain (lex Lisp_build_program_dict "(") "(" 1).2.2

/-! Helper lemmas: association lists. -/

theorem lookupChild_setChild_self (cs : List (Char × LexCharDict)) (k : Char)
    (d : LexCharDict) : lookupChild (setChild cs k d) k = some d := by
  induction cs with
  | nil => simp [setChild, lookupChild]
  | cons p rest ih =>
    obtain ⟨c, x⟩ := p
    by_cases h : c = k <;> simp [setChild, lookupChild, h, ih]

theorem lookupChild_setChild_ne (cs : List (Char × LexCharDict)) (k c : Char)
    (d : LexCharDict) (h : c ≠ k) :
    lookupChild (setChild cs k d) c = lookupChild cs c := by
  induction cs with
  | nil => simp [setChild, lookupChild, h.symm]
  | cons p rest ih =>
    obtain ⟨c', x⟩ := p
    by_cases h1 : c' = k
    · subst h1
      simp [setChild, lookupChild, h.symm]
    · simp [setChild, lookupChild, h1, ih]

theorem lookupChild_append_of_some (cs ds : List (Char × LexCharDict))
    (k : Char) (x : LexCharDict) (h : lookupChild cs k = some x) :
    lookupChild (cs ++ ds) k = some x := by
  induction cs with
  | nil => simp [lookupChild] at h
  | cons p rest ih =>
    obtain ⟨c, d⟩ := p
    by_cases hc : c = k <;> simp_all [lookupChild]

theorem lookupTok_append_self (cache : List (String × Token)) (lexm : String)
    (t : Token) (h : lookupTok cache lexm = none) :
    lookupTok (cache ++ [(lexm, t)]) lexm = some t := by
  induction cache with
  | nil => simp [lookupTok]
  | cons p rest ih =>
    obtain ⟨w, x⟩ := p
    by_cases hc : w = lexm <;> simp_all [lookupTok]

theorem lookupGen_setGen_self (gens : List (String × List String)) (s : String)
    (g : List String) : lookupGen (setGen gens s g) s = some g := by
  induction gens with
  | nil => simp [setGen, lookupGen]
  | cons p rest ih =>
    obtain ⟨w, x⟩ := p
    by_cases h : w = s <;> simp [setGen, lookupGen, h, ih]

/-! Helper lemmas: monotone growth of the automaton tree. -/

theorem grows_refl (t : LexCharDict) : Grows t t :=
  fun _ n₁ h => ⟨n₁, h, rfl, rfl⟩

theorem grows_trans {t₁ t₂ t₃ : LexCharDict} (h₁ : Grows t₁ t₂)
    (h₂ : Grows t₂ t₃) : Grows t₁ t₃ := by
  intro p n₁ h
  obtain ⟨n₂, hn₂, hc₂, ht₂⟩ := h₁ p n₁ h
  obtain ⟨n₃, hn₃, hc₃, ht₃⟩ := h₂ p n₂ hn₂
  exact ⟨n₃, hn₃, hc₃.trans hc₂, ht₃.trans ht₂⟩

theorem walk_grows (l : List Char) (t : LexCharDict) :
    Grows t (walk t l).2.2 := by
  induction l generalizing t with
  | nil => simpa [walk] using grows_refl t
  | cons k rest ih =>
    obtain ⟨ch, tok, cs⟩ := t
    intro p n₁ hres
    cases hl : lookupChild cs k with
    | some d =>
      have hw : (walk (.mk ch tok cs) (k :: rest)).2.2 =
          .mk ch tok (setChild cs k (walk d rest).2.2) := by
        simp [walk, hl]
      rw [hw]
      cases p with
      | nil =>
        simp only [resolve, Option.some.injEq] at hres
        subst hres
        exact ⟨_, rfl, rfl, rfl⟩
      | cons c ps =>
        by_cases hc : c = k
        · subst hc
          simp only [resolve, hl] at hres
          obtain ⟨n₂, hn₂, hcc, htt⟩ := ih d ps n₁ hres
          refine ⟨n₂, ?_, hcc, htt⟩
          have hl2 := lookupChild_setChild_self cs c (walk d rest).2.2
          simp only [resolve, hl2]
          exact hn₂
        · simp only [resolve] at hres
          cases hlc : lookupChild cs c with
          | none => rw [hlc] at hres; simp at hres
          | some x =>
            rw [hlc] at hres
            refine ⟨n₁, ?_, rfl, rfl⟩
            have hl2 : lookupChild (setChild cs k (walk d rest).2.2) c =
                some x := by
              rw [lookupChild_setChild_ne cs k c _ hc, hlc]
            simp only [resolve, hl2]
            exact hres
    | none =>
      have hw : (walk (.mk ch tok cs) (k :: rest)).2.2 =
          .mk ch tok (cs ++ [(k, (walk (mkMissing tok k) rest).2.2)]) := by
        simp [walk, hl]
      rw [hw]
      cases p with
      | nil =>
        simp only [resolve, Option.some.injEq] at hres
        subst hres
        exact ⟨_, rfl, rfl, rfl⟩
      | cons c ps =>
        simp only [resolve] at hres
        cases hlc : lookupChild cs c with
        | none => rw [hlc] at hres; simp at hres
        | some x =>
          rw [hlc] at hres
          refine ⟨n₁, ?_, rfl, rfl⟩
          have hl2 : lookupChild (cs ++ [(k, (walk (mkMissing tok k) rest).2.2)]) c =
              some x := lookupChild_append_of_some cs _ c x hlc
          simp only [resolve, hl2]
          exact hres

theorem lookup_matches_cases (ld : LexemeDict) (lexm : String) :
    ((ld.lookup lexm).2)._matches = ld._matches ∨
    ((ld.lookup lexm).2)._matches = (walk ld._matches lexm.toList).2.2 := by
  unfold LexemeDict.lookup
  cases hc : lookupTok ld.cache lexm with
  | some t => simp [hc]
  | none =>
    rcases hw : walk ld._matches lexm.toList with ⟨tk, wt⟩
    obtain ⟨w, t'⟩ := wt
    cases tk <;> simp [hc, hw]

theorem lookup_grows (ld : LexemeDict) (lexm : String) :
    Grows ld._matches ((ld.lookup lexm).2)._matches := by
  rcases lookup_matches_cases ld lexm with h | h <;> rw [h]
  · exact grows_refl _
  · exact walk_grows lexm.toList ld._matches

theorem classifyAll_grows (ops : List String) (ld : LexemeDict) :
    Grows ld._matches (classifyAll ld ops)._matches := by
  induction ops generalizing ld with
  | nil => exact grows_refl _
  | cons l rest ih =>
    have h1 := lookup_grows ld l
    have h2 := ih ((ld.lookup l).2)
    have hfold : classifyAll ld (l :: rest) = classifyAll ((ld.lookup l).2) rest := rfl
    rw [hfold]
    exact grows_trans h1 h2

theorem lookup_idem (ld : LexemeDict) (lexm : String) (t : Token)
    (ld' : LexemeDict) (h : ld.lookup lexm = (.ok t, ld')) :
    ld'.lookup lexm = (.ok t, ld') := by
  unfold LexemeDict.lookup at h ⊢
  cases hc : lookupTok ld.cache lexm with
  | some t₀ =>
    rw [hc] at h
    simp only [Prod.mk.injEq, Except.ok.injEq] at h
    obtain ⟨rfl, rfl⟩ := h
    rw [hc]
  | none =>
    rw [hc] at h
    rcases hw : walk ld._matches lexm.toList with ⟨tk, wt⟩
    obtain ⟨w, t'⟩ := wt
    rw [hw] at h
    cases tk with
    | pystr s => simp at h
    | pynone =>
      simp only [Prod.mk.injEq, Except.ok.injEq] at h
      obtain ⟨rfl, rfl⟩ := h
      simp [lookupTok_append_self ld.cache lexm _ hc]
    | toktype tt0 =>
      simp only [Prod.mk.injEq, Except.ok.injEq] at h
      obtain ⟨rfl, rfl⟩ := h
      simp [lookupTok_append_self ld.cache lexm _ hc]

/-! Helper lemmas: the transition-derivation rules of `__missing__`. -/

theorem mkMissing_pystr_cases (ptok : PyTok) (k : Char) (s : String)
    (h : (mkMissing ptok k).tok = .pystr s) :
    s = "unmatched_string" ∨ s = "unfinished_symbol" ∨ s = "." ∨
      ptok = .pystr s := by
  unfold mkMissing at h
  split_ifs at h <;> simp_all [LexCharDict.tok]

theorem pyIntOk_facts (c : Char) (h : pyIntOk c = true) :
    c ≠ dq ∧ c ≠ sq ∧ c ≠ bs ∧ c ≠ 'i' ∧ c ≠ '.' := by
  refine ⟨?_, ?_, ?_, ?_, ?_⟩ <;> intro hc <;> subst hc <;>
    simp [pyIntOk, dq, sq, bs] at h

theorem mkMissing_unfinished (c : Char) (h1 : c ≠ dq) (h2 : c ≠ sq) :
    (mkMissing (.pystr "unfinished_symbol") c).tok = .toktype .SYMBOL := by
  simp [mkMissing, h1, h2, LexCharDict.tok]

theorem mkMissing_ums_other (c : Char) (h1 : c ≠ dq) (h2 : c ≠ bs) :
    mkMissing (.pystr "unmatched_string") c =
      .mk (some (String.singleton c)) (.pystr "unmatched_string") [] := by
  by_cases h3 : c = sq <;>
    simp [mkMissing, h1, h2, h3, (show sq ≠ dq by decide),
      (show sq ≠ bs by decide)]

theorem mkMissing_dot_digit (c : Char) (h : pyIntOk c = true) :
    (mkMissing (.pystr ".") c).tok = .toktype .REAL := by
  obtain ⟨h1, h2, h3, _, _⟩ := pyIntOk_facts c h
  simp [mkMissing, h1, h2, h3, h, LexCharDict.tok]

theorem mkMissing_real_digit (c : Char) (h : pyIntOk c = true) :
    (mkMissing (.toktype .REAL) c).tok = .toktype .REAL := by
  obtain ⟨h1, h2, h3, _, _⟩ := pyIntOk_facts c h
  simp [mkMissing, h1, h2, h3, h, LexCharDict.tok]

theorem mkMissing_number_other (c : Char) (h : pyIntOk c = false)
    (h1 : c ≠ 'i') (h2 : c ≠ '.') (h3 : c ≠ dq) (h4 : c ≠ sq) :
    (mkMissing (.toktype .NUMBER) c).tok = .toktype .NAME := by
  simp [mkMissing, h, h1, h2, h3, h4, LexCharDict.tok]

/-! Helper lemmas: the token stream. -/

theorem drain_complete (L : List String) (pd : ProgramDict) (s : String)
    (hg : lookupGen pd.gens s = some L)
    (hok : (drain pd s L.length).2.1 = none) :
    (drain pd s L.length).1.length = L.length := by
  induction L generalizing pd with
  | nil => simp [drain]
  | cons l rest ih =>
    rcases hlk : (pd.lexd.lookup l) with ⟨res, ld'⟩
    cases res with
    | ok t =>
      have hnext : pd.next s = (some (.ok t),
          { pd with lexd := ld', gens := setGen pd.gens s rest }) := by
        simp [ProgramDict.next, hg, hlk]
      have hd : drain pd s (l :: rest).length =
          (t :: (drain { pd with lexd := ld', gens := setGen pd.gens s rest } s
              rest.length).1,
            (drain { pd with lexd := ld', gens := setGen pd.gens s rest } s
              rest.length).2.1,
            (drain { pd with lexd := ld', gens := setGen pd.gens s rest } s
              rest.length).2.2) := by
        simp [drain, hnext]
      rw [hd] at hok ⊢
      have hg2 : lookupGen (setGen pd.gens s rest) s = some rest :=
        lookupGen_setGen_self pd.gens s rest
      have := ih { pd with lexd := ld', gens := setGen pd.gens s rest } hg2 hok
      simp [this]
    | error e =>
      have hnext : pd.next s = (some (.error e),
          { pd with lexd := ld', gens := setGen pd.gens s [] }) := by
        simp [ProgramDict.next, hg, hlk]
      have hd : (drain pd s (l :: rest).length).2.1 = some e := by
        simp [drain, hnext]
      rw [hd] at hok
      simp at hok

theorem lookup_error_iff (ld : LexemeDict) (lexm : String)
    (hmiss : lookupTok ld.cache lexm = none) :
    (∃ e, (ld.lookup lexm).1 = .error e) ↔
      ∃ s, (walk ld._matches lexm.toList).1 = .pystr s := by
  unfold LexemeDict.lookup
  rcases hw : walk ld._matches lexm.toList with ⟨tk, wt⟩
  obtain ⟨w, t'⟩ := wt
  cases tk <;> simp [hmiss, hw]

/-! Helper lemmas: the only internal markers ever written are
`unmatched_string`, `unfinished_symbol` and `.`. -/

theorem lookupChild_append_none (cs ds : List (Char × LexCharDict))
    (c : Char) (h : lookupChild cs c = none) :
    lookupChild (cs ++ ds) c = lookupChild ds c := by
  induction cs with
  | nil => simp
  | cons p rest ih =>
    obtain ⟨c', x⟩ := p
    by_cases hc : c' = c <;> simp_all [lookupChild]

theorem resolve_nil_children (ch : Option String) (tok : PyTok)
    (p : List Char) (n : LexCharDict)
    (h : resolve (.mk ch tok []) p = some n) :
    p = [] ∧ n = .mk ch tok [] := by
  cases p with
  | nil =>
    simp only [resolve, Option.some.injEq] at h
    exact ⟨rfl, h.symm⟩
  | cons c ps => simp [resolve, lookupChild] at h

theorem walk_resolve (l : List Char) (t : LexCharDict) :
    ∃ nf, resolve (walk t l).2.2 l = some nf ∧ nf.tok = (walk t l).1 := by
  induction l generalizing t with
  | nil => exact ⟨t, by simp [walk, resolve], by simp [walk]⟩
  | cons k rest ih =>
    obtain ⟨ch, tok, cs⟩ := t
    cases hl : lookupChild cs k with
    | some d =>
      have hw : walk (.mk ch tok cs) (k :: rest) =
          ((walk d rest).1, d.charD ++ (walk d rest).2.1,
            .mk ch tok (setChild cs k (walk d rest).2.2)) := by
        simp [walk, hl]
      obtain ⟨nf, hr, ht⟩ := ih d
      refine ⟨nf, ?_, ?_⟩
      · rw [hw]
        simp only [resolve, lookupChild_setChild_self]
        exact hr
      · rw [hw]
        exact ht
    | none =>
      have hw : walk (.mk ch tok cs) (k :: rest) =
          ((walk (mkMissing tok k) rest).1,
            (mkMissing tok k).charD ++ (walk (mkMissing tok k) rest).2.1,
            .mk ch tok (cs ++ [(k, (walk (mkMissing tok k) rest).2.2)])) := by
        simp [walk, hl]
      obtain ⟨nf, hr, ht⟩ := ih (mkMissing tok k)
      refine ⟨nf, ?_, ?_⟩
      · rw [hw]
        have h2 : lookupChild (cs ++ [(k, (walk (mkMissing tok k) rest).2.2)]) k =
            some (walk (mkMissing tok k) rest).2.2 := by
          rw [lookupChild_append_none cs _ k hl]
          simp [lookupChild]
        simp only [resolve, h2]
        exact hr
      · rw [hw]
        exact ht

theorem markersOK_child (ch : Option String) (tok : PyTok)
    (cs : List (Char × LexCharDict)) (k : Char) (d : LexCharDict)
    (hok : MarkersOK (.mk ch tok cs)) (h : lookupChild cs k = some d) :
    MarkersOK d := by
  intro p n hres s hs
  refine hok (k :: p) n ?_ s hs
  simp only [resolve, h]
  exact hres

theorem markersOK_root_tok (t : LexCharDict) (hok : MarkersOK t) (s : String)
    (hs : t.tok = .pystr s) :
    s = "unmatched_string" ∨ s = "unfinished_symbol" ∨ s = "." :=
  hok [] t (by simp [resolve]) s hs

theorem mkMissing_children (ptok : PyTok) (k : Char) :
    (mkMissing ptok k).children = [] ∨
    (mkMissing ptok k).children = escChildren := by
  unfold mkMissing
  split_ifs <;> simp [LexCharDict.children]

theorem markersOK_mkMissing (ptok : PyTok) (k : Char)
    (hp : ∀ s, ptok = .pystr s →
      s = "unmatched_string" ∨ s = "unfinished_symbol" ∨ s = ".") :
    MarkersOK (mkMissing ptok k) := by
  intro p n hres s hs
  rcases hm : mkMissing ptok k with ⟨mch, mtok, mcs⟩
  rw [hm] at hres
  cases p with
  | nil =>
    simp only [resolve, Option.some.injEq] at hres
    subst hres
    have htok : (mkMissing ptok k).tok = .pystr s := by
      rw [hm]; exact hs
    rcases mkMissing_pystr_cases ptok k s htok with h | h | h | h
    · exact Or.inl h
    · exact Or.inr (Or.inl h)
    · exact Or.inr (Or.inr h)
    · exact hp s h
  | cons c ps =>
    have hcs : mcs = [] ∨ mcs = escChildren := by
      have := mkMissing_children ptok k
      rw [hm] at this
      exact this
    rcases hcs with rfl | rfl
    · simp [resolve, lookupChild] at hres
    · simp only [resolve] at hres
      rcases hlc : lookupChild escChildren c with _ | d
      · rw [hlc] at hres; simp at hres
      · rw [hlc] at hres
        have hd : d.tok = .pystr "unmatched_string" ∧ d.children = [] := by
          revert hlc
          simp only [escChildren, lookupChild]
          split_ifs <;> intro hlc <;>
            simp only [Option.some.injEq] at hlc <;>
            simp [← hlc, LexCharDict.tok, LexCharDict.children]
        obtain ⟨hd1, hd2⟩ := hd
        rcases hn : d with ⟨dch, dtok, dcs⟩
        rw [hn] at hd1 hd2 hres
        simp only [LexCharDict.tok] at hd1
        simp only [LexCharDict.children] at hd2
        subst hd2
        obtain ⟨rfl, rfl⟩ := resolve_nil_children dch dtok ps n hres
        simp only [LexCharDict.tok] at hs
        rw [hd1] at hs
        exact Or.inl (PyTok.pystr.injEq .. ▸ hs).symm

theorem walk_markersOK (l : List Char) (t : LexCharDict)
    (hok : MarkersOK t) : MarkersOK (walk t l).2.2 := by
  induction l generalizing t with
  | nil => simpa [walk] using hok
  | cons k rest ih =>
    obtain ⟨ch, tok, cs⟩ := t
    cases hl : lookupChild cs k with
    | some d =>
      have hw : (walk (.mk ch tok cs) (k :: rest)).2.2 =
          .mk ch tok (setChild cs k (walk d rest).2.2) := by
        simp [walk, hl]
      rw [hw]
      have hd : MarkersOK (walk d rest).2.2 :=
        ih d (markersOK_child ch tok cs k d hok hl)
      intro p n hres s hs
      cases p with
      | nil =>
        simp only [resolve, Option.some.injEq] at hres
        subst hres
        exact markersOK_root_tok _ hok s hs
      | cons c ps =>
        by_cases hc : c = k
        · subst hc
          simp only [resolve, lookupChild_setChild_self] at hres
          exact hd ps n hres s hs
        · simp only [resolve, lookupChild_setChild_ne cs k c _ hc] at hres
          rcases hlc : lookupChild cs c with _ | x
          · rw [hlc] at hres; simp at hres
          · rw [hlc] at hres
            exact markersOK_child ch tok cs c x hok hlc ps n hres s hs
    | none =>
      have hw : (walk (.mk ch tok cs) (k :: rest)).2.2 =
          .mk ch tok (cs ++ [(k, (walk (mkMissing tok k) rest).2.2)]) := by
        simp [walk, hl]
      rw [hw]
      have hroot : ∀ s, tok = .pystr s →
          s = "unmatched_string" ∨ s = "unfinished_symbol" ∨ s = "." :=
        fun s hs => markersOK_root_tok _ hok s hs
      have hd : MarkersOK (walk (mkMissing tok k) rest).2.2 :=
        ih (mkMissing tok k) (markersOK_mkMissing tok k hroot)
      intro p n hres s hs
      cases p with
      | nil =>
        simp only [resolve, Option.some.injEq] at hres
        subst hres
        exact markersOK_root_tok _ hok s hs
      | cons c ps =>
        simp only [resolve] at hres
        rcases hlc : lookupChild cs c with _ | x
        · rw [lookupChild_append_none cs _ c hlc] at hres
          by_cases hc : k = c
          · subst hc
            simp only [lookupChild, if_pos rfl] at hres
            exact hd ps n hres s hs
          · simp only [lookupChild, if_neg hc] at hres
            simp at hres
        · rw [lookupChild_append_of_some cs _ c x hlc] at hres
          exact markersOK_child ch tok cs c x hok hlc ps n hres s hs

theorem lookup_markersOK (ld : LexemeDict) (lexm : String)
    (hok : MarkersOK ld._matches) :
    MarkersOK ((ld.lookup lexm).2)._matches := by
  rcases lookup_matches_cases ld lexm with h | h <;> rw [h]
  · exact hok
  · exact walk_markersOK lexm.toList ld._matches hok

theorem markersOK_seed : MarkersOK (build_lexchar_dict SYMBOL_LUT) := by
  have hseed : build_lexchar_dict SYMBOL_LUT = .mk none .pynone
      [('(', .mk (some "(") (.toktype .L_PAREN) []),
       (')', .mk (some ")") (.toktype .R_PAREN) []),
       ('[', .mk (some "[") (.toktype .L_BRACKET) []),
       (']', .mk (some "]") (.toktype .R_BRACKET) [])] := rfl
  rw [hseed]
  intro p n hres s hs
  cases p with
  | nil =>
    simp only [resolve, Option.some.injEq] at hres
    subst hres
    simp [LexCharDict.tok] at hs
  | cons c ps =>
    simp only [resolve, lookupChild] at hres
    split_ifs at hres <;>
      (obtain ⟨rfl, rfl⟩ := resolve_nil_children _ _ ps n hres;
       simp [LexCharDict.tok] at hs)

theorem lookup_error_iff_strong (ld : LexemeDict) (lexm : String)
    (hmiss : lookupTok ld.cache lexm = none) (hok : MarkersOK ld._matches) :
    (∃ e, (ld.lookup lexm).1 = .error e) ↔
      ((walk ld._matches lexm.toList).1 = .pystr "unmatched_string" ∨
       (walk ld._matches lexm.toList).1 = .pystr "unfinished_symbol" ∨
       (walk ld._matches lexm.toList).1 = .pystr ".") := by
  rw [lookup_error_iff ld lexm hmiss]
  constructor
  · rintro ⟨s, hs⟩
    obtain ⟨nf, hr, ht⟩ := walk_resolve lexm.toList ld._matches
    have hmk := walk_markersOK lexm.toList ld._matches hok
    have h3 := hmk lexm.toList nf hr s (by rw [ht, hs])
    rcases h3 with h | h | h
    · exact Or.inl (by rw [hs, h])
    · exact Or.inr (Or.inl (by rw [hs, h]))
    · exact Or.inr (Or.inr (by rw [hs, h]))
  · rintro (h | h | h) <;> exact ⟨_, h⟩

/-! The claims. -/

/-- Claim C1: `tokenize "(+ 1 2)"` yields exactly the five tokens
LParen `(`, Name `+`, Number `1`, Number `2`, RParen `)` in that order
(whitespace discarded, delimiters emitted as their own one-character
lexemes), and each single delimiter character among `(`, `)`, `[`, `]`
tokenizes to exactly one token of the matching bracket type with that
character as its text. -/
theorem claim_C1 :
    tokenize "(+ 1 2)" =
      ([⟨.toktype .L_PAREN, "("⟩, ⟨.toktype .NAME, "+"⟩,
        ⟨.toktype .NUMBER, "1"⟩, ⟨.toktype .NUMBER, "2"⟩,
        ⟨.toktype .R_PAREN, ")"⟩], none) ∧
    tokenize "(" = ([⟨.toktype .L_PAREN, "("⟩], none) ∧
    tokenize ")" = ([⟨.toktype .R_PAREN, ")"⟩], none) ∧
    tokenize "[" = ([⟨.toktype .L_BRACKET, "["⟩], none) ∧
    tokenize "]" = ([⟨.toktype .R_BRACKET, "]"⟩], none) :=
  ⟨rfl, rfl, rfl, rfl, rfl⟩

/-- Claim C2: for every non-empty lexeme not yet cached, on any automaton
grown from the seed (all of whose internal markers are among the three
the source writes), classification raises a lexing error iff the node
reached after consuming all its characters carries one of the internal
non-terminal markers — unmatched string, unfinished symbol, or dangling
decimal point; the seed automaton satisfies this invariant and every
classification preserves it; and `tokenize` on `"unterminated` fails with
this error, yielding no token before failing. -/
theorem claim_C2 :
    (∀ (ld : LexemeDict) (lexm : String), lexm ≠ "" →
        lookupTok ld.cache lexm = none → MarkersOK ld._matches →
        ((∃ e, (ld.lookup lexm).1 = .error e) ↔
          ((walk ld._matches lexm.toList).1 = .pystr "unmatched_string" ∨
           (walk ld._matches lexm.toList).1 = .pystr "unfinished_symbol" ∨
           (walk ld._matches lexm.toList).1 = .pystr "."))) ∧
    MarkersOK freshLD._matches ∧
    (∀ (ld : LexemeDict) (lexm : String), MarkersOK ld._matches →
        MarkersOK ((ld.lookup lexm).2)._matches) ∧
    tokenize unterminatedLine =
      ([], some (.lexerError "unmatched_string" unterminatedLine)) :=
  ⟨fun ld lexm _ hmiss hok => lookup_error_iff_strong ld lexm hmiss hok,
   markersOK_seed, lookup_markersOK, rfl⟩

/-- Witness for C2: the lexeme `"unterminated` itself, on the fresh
session's `LexemeDict`. -/
theorem claim_C2_witness :
    (∃ e, (freshLD.lookup unterminatedLine).1 = .error e) ∧
    MarkersOK ((freshLD.lookup unterminatedLine).2)._matches :=
  ⟨(claim_C2.1 freshLD unterminatedLine (by decide) rfl claim_C2.2.1).2
      (Or.inl rfl),
   claim_C2.2.2.1 freshLD unterminatedLine claim_C2.2.1⟩

/-- Counterexample for C3: the claim's clause "any other character after
Number reclassifies the lexeme as Name" fails at `"`: the lexeme `1"`
tokenizes to a Number token (the quote inherits the Number marker), not a
Name token. -/
theorem claim_C3_counterexample :
    tokenize oneQuoteLine = ([⟨.toktype .NUMBER, oneQuoteLine⟩], none) ∧
    (mkMissing (.toktype .NUMBER) dq).tok = .toktype .NUMBER ∧
    PyTok.toktype .NUMBER ≠ .toktype .NAME :=
  ⟨rfl, rfl, by decide⟩

/-- Claim C3 (amended): `3.14` is Real, `3.14i` Imaginary, `3.14x` Name;
`.` after Number gives the internal DecimalPoint marker, a digit after
DecimalPoint gives Real, further digits keep Real, `i` after Number or
Real gives Imaginary, and any other character after Number — except `"`
and `'`, which inherit the Number marker — reclassifies the lexeme as
Name. -/
theorem claim_C3 :
    tokenize "3.14" = ([⟨.toktype .REAL, "3.14"⟩], none) ∧
    tokenize "3.14i" = ([⟨.toktype .IMAGINARY, "3.14i"⟩], none) ∧
    tokenize "3.14x" = ([⟨.toktype .NAME, "3.14x"⟩], none) ∧
    (mkMissing (.toktype .NUMBER) '.').tok = .pystr "." ∧
    (∀ c, pyIntOk c = true → (mkMissing (.pystr ".") c).tok = .toktype .REAL) ∧
    (∀ c, pyIntOk c = true → (mkMissing (.toktype .REAL) c).tok = .toktype .REAL) ∧
    (mkMissing (.toktype .NUMBER) 'i').tok = .toktype .IMAGINARY ∧
    (mkMissing (.toktype .REAL) 'i').tok = .toktype .IMAGINARY ∧
    (∀ c, pyIntOk c = false → c ≠ 'i' → c ≠ '.' → c ≠ dq → c ≠ sq →
        (mkMissing (.toktype .NUMBER) c).tok = .toktype .NAME) :=
  ⟨rfl, rfl, rfl, rfl, mkMissing_dot_digit, mkMissing_real_digit, rfl, rfl,
   mkMissing_number_other⟩

/-- Witness for C3: instantiating the universal clauses at `5` and `x`. -/
theorem claim_C3_witness :
    (mkMissing (.pystr ".") '5').tok = .toktype .REAL ∧
    (mkMissing (.toktype .REAL) '5').tok = .toktype .REAL ∧
    (mkMissing (.toktype .NUMBER) 'x').tok = .toktype .NAME :=
  ⟨claim_C3.2.2.2.2.1 '5' (by decide),
   claim_C3.2.2.2.2.2.1 '5' (by decide),
   claim_C3.2.2.2.2.2.2.2.2 'x' (by decide) (by decide) (by decide)
     (by decide) (by decide)⟩

/-- Claim C4: `tokenize "\"hello\""` yields a single String token with
resolved text `hello` (quote markers normalized away); the escape node
recognizes exactly `\"` (displaying `"`), `\n` (newline), `\t` (tab) and
`\\` (backslash), each resolving back into the `unmatched_string` state;
and a string lexeme exercising all four escapes resolves to the expanded
text. -/
theorem claim_C4 :
    tokenize helloLine = ([⟨.toktype .STRING, "hello"⟩], none) ∧
    mkMissing (.pystr "unmatched_string") bs =
      .mk (some "") (.pystr "unmatched_string") escChildren ∧
    lookupChild escChildren dq =
      some (.mk (some (String.singleton dq)) (.pystr "unmatched_string") []) ∧
    lookupChild escChildren 'n' =
      some (.mk (some (String.singleton (Char.ofNat 10)))
        (.pystr "unmatched_string") []) ∧
    lookupChild escChildren 't' =
      some (.mk (some (String.singleton (Char.ofNat 9)))
        (.pystr "unmatched_string") []) ∧
    lookupChild escChildren bs =
      some (.mk (some (String.singleton bs)) (.pystr "unmatched_string") []) ∧
    tokenize escLine = ([⟨.toktype .STRING, escLineResolved⟩], none) :=
  ⟨rfl, rfl, rfl, rfl, rfl, rfl, rfl⟩

/-- Counterexample for C5: the escape-pending flag is not cleared when
the next character is a `"`, contradicting "the flag is cleared after
that one character regardless of what it is": after an escaped quote the
flag stays set, so in `"\"" x` the second, unescaped quote does not close
the string and the whole line stays one lexeme. -/
theorem claim_C5_counterexample :
    (splitStep SYMBOLS ⟨"", true, true, []⟩ dq).escape = true ∧
    splitLine SYMBOLS c5Line = [c5Line] ∧
    [c5Line] ≠ [c5ClaimedString, "x"] :=
  ⟨rfl, rfl, by decide⟩

/-- Claim C5 (amended): inside a string a backslash sets the
escape-pending flag; the flag is updated by the next in-string non-quote
character (cleared unless that character is itself a backslash), while a
`"` leaves it unchanged and toggles the in-string flag only when the flag
is unset — so after an escaped quote consecutive quotes do not toggle the
in-string flag until a non-quote in-string character clears it. -/
theorem claim_C5 :
    (∀ (symbols : List Char) (st : SplitState),
        splitStep symbols st dq =
          { st with string := (if st.escape then st.string else !st.string),
                    word := st.word.push dq }) ∧
    (∀ (symbols : List Char) (st : SplitState) (c : Char), c ≠ dq →
        st.string = true →
        splitStep symbols st c =
          { st with word := st.word.push c, escape := (c = bs) }) :=
  ⟨fun symbols st => by simp [splitStep],
   fun symbols st c h hs => by simp [splitStep, h, hs]⟩

/-- Witness for C5: one in-string step on an ordinary character. -/
theorem claim_C5_witness :
    splitStep SYMBOLS ⟨"", true, false, []⟩ 'a' =
      { word := "a", string := true, escape := false, out := [] } :=
  claim_C5.2 SYMBOLS ⟨"", true, false, []⟩ 'a' (by decide) rfl

/-- Counterexample for C6: on one tokenizing session (one `ProgramDict`),
a first call to `lex` on `(` yields the one-token sequence; a second call
with the same line returns the same, now exhausted, cached generator,
which yields neither the complete sequence nor a failure — it does not
re-scan. -/
theorem claim_C6_counterexample :
    (drain (lex Lisp_build_program_dict "(") "(" 1).1 =
      [⟨.toktype .L_PAREN, "("⟩] ∧
    (drain (lex pdConsumed "(") "(" 1).1 = [] ∧
    (drain (lex pdConsumed "(") "(" 1).2.1 = none ∧
    ([] : List Token) ≠ [⟨.toktype .L_PAREN, "("⟩] :=
  ⟨rfl, rfl, rfl, by decide⟩

/-- Claim C6 (amended): a call on a fresh session (as `Lisp._lex` builds
one per call) yields the complete token sequence — one token per lexeme —
or fails; but a repeated `lex` call on the same `ProgramDict` returns the
same cached generator rather than re-scanning, and an exhausted generator
yields nothing. -/
theorem claim_C6 :
    (∀ s : String, (tokenize s).2 = none →
        (tokenize s).1.length = (splitLine SYMBOLS s).length) ∧
    (∀ (pd : ProgramDict) (s : String) (g : List String),
        lookupGen pd.gens s = some g → lex pd s = pd) ∧
    (∀ (pd : ProgramDict) (s : String),
        lookupGen pd.gens s = some [] → pd.next s = (none, pd)) := by
  refine ⟨?_, ?_, ?_⟩
  · intro s h
    have hlk : lookupGen (lex Lisp_build_program_dict s).gens s =
        some (splitLine SYMBOLS s) := by
      simp [lex, ProgramDict.ensure, Lisp_build_program_dict, lookupGen]
    have ht : tokenize s =
        ((drain (lex Lisp_build_program_dict s) s
            (splitLine SYMBOLS s).length).1,
          (drain (lex Lisp_build_program_dict s) s
            (splitLine SYMBOLS s).length).2.1) := rfl
    rw [ht] at h ⊢
    exact drain_complete (splitLine SYMBOLS s)
      (lex Lisp_build_program_dict s) s hlk h
  · intro pd s g h
    simp [lex, ProgramDict.ensure, h]
  · intro pd s h
    simp [ProgramDict.next, h]

/-- Witness for C6: the line `(` on the fresh session, and the consumed
session `pdConsumed`. -/
theorem claim_C6_witness :
    (tokenize "(").1.length = (splitLine SYMBOLS "(").length ∧
    lex pdConsumed "(" = pdConsumed ∧
    pdConsumed.next "(" = (none, pdConsumed) :=
  ⟨claim_C6.1 "(" rfl, claim_C6.2.1 pdConsumed "(" [] rfl,
   claim_C6.2.2 pdConsumed "(" rfl⟩

/-- Counterexample for C7: the clause "any one subsequent character
completes it, yielding Symbol" fails at `'`: the lexeme `''` keeps the
`unfinished_symbol` marker and tokenizing it fails, instead of producing
a Symbol token. -/
theorem claim_C7_counterexample :
    tokenize sqsqLine = ([], some (.lexerError "unfinished_symbol" sqsqLine)) ∧
    (mkMissing (.pystr "unfinished_symbol") sq).tok ≠ .toktype .SYMBOL :=
  ⟨rfl, by decide⟩

/-- Claim C7 (amended): `tokenize "'foo"` yields exactly one Symbol
token; an apostrophe from an undetermined state enters the internal
UnfinishedSymbol marker, and any one subsequent character except `"` and
`'` (which inherit the marker) completes it, yielding Symbol; a lone
apostrophe lexeme fails with an incomplete-lexeme error. -/
theorem claim_C7 :
    tokenize "'foo" = ([⟨.toktype .SYMBOL, "foo"⟩], none) ∧
    mkMissing .pynone sq = .mk (some "") (.pystr "unfinished_symbol") [] ∧
    (∀ c, c ≠ dq → c ≠ sq →
        (mkMissing (.pystr "unfinished_symbol") c).tok = .toktype .SYMBOL) ∧
    tokenize (String.singleton sq) =
      ([], some (.lexerError "unfinished_symbol" (String.singleton sq))) :=
  ⟨rfl, rfl, mkMissing_unfinished, rfl⟩

/-- Witness for C7: the completing character `f`. -/
theorem claim_C7_witness :
    (mkMissing (.pystr "unfinished_symbol") 'f').tok = .toktype .SYMBOL :=
  claim_C7.2.2.1 'f' (by decide) (by decide)

/-- Claim C8: any sequence of classification operations only grows the
automaton — every node reachable before is reachable by the same
character path afterwards with its display character and marker
unchanged — and classifying the same lexeme text a second time (a cache
hit) returns a token identical to the first classification. -/
theorem claim_C8 :
    (∀ (ld : LexemeDict) (ops : List String) (p : List Char)
        (n₁ : LexCharDict), resolve ld._matches p = some n₁ →
        ∃ n₂, resolve (classifyAll ld ops)._matches p = some n₂ ∧
          n₂.char = n₁.char ∧ n₂.tok = n₁.tok) ∧
    (∀ (ld : LexemeDict) (lexm : String) (t : Token) (ld' : LexemeDict),
        ld.lookup lexm = (.ok t, ld') → ld'.lookup lexm = (.ok t, ld')) :=
  ⟨fun ld ops p n₁ h => classifyAll_grows ops ld p n₁ h, lookup_idem⟩

/-- Witness for C8: the seed node for `(` survives classifying `1`, and
re-classifying `1` hits the cache with the identical token. -/
theorem claim_C8_witness :
    (∃ n₂, resolve (classifyAll freshLD ["1"])._matches ['('] = some n₂ ∧
        n₂.char = (LexCharDict.mk (some "(") (.toktype .L_PAREN) []).char ∧
        n₂.tok = (LexCharDict.mk (some "(") (.toktype .L_PAREN) []).tok) ∧
    ((freshLD.lookup "1").2).lookup "1" =
      (.ok ⟨.toktype .NUMBER, "1"⟩, (freshLD.lookup "1").2) :=
  ⟨claim_C8.1 freshLD ["1"] ['('] (.mk (some "(") (.toktype .L_PAREN) []) rfl,
   claim_C8.2 freshLD "1" ⟨.toktype .NUMBER, "1"⟩ ((freshLD.lookup "1").2) rfl⟩

/-- Claim C9: for every character `c` outside the escape table
`{", n, t, \}`, the escape node has no pre-seeded child for `c`, and the
synthesized transition stays in the `unmatched_string` state with `c`
displayed literally (the backslash itself displays nothing); concretely,
classifying `"a\xb"` yields a String token with resolved text `axb`. -/
theorem claim_C9 :
    (∀ c : Char, c ∉ ([dq, 'n', 't', bs] : List Char) →
        lookupChild escChildren c = none ∧
        mkMissing (.pystr "unmatched_string") c =
          .mk (some (String.singleton c)) (.pystr "unmatched_string") []) ∧
    (mkMissing (.pystr "unmatched_string") bs).charD = "" ∧
    (freshLD.lookup escXLexeme).1 = .ok ⟨.toktype .STRING, "axb"⟩ := by
  refine ⟨?_, rfl, rfl⟩
  intro c hc
  simp only [List.mem_cons, List.not_mem_nil, or_false, not_or] at hc
  obtain ⟨h1, h2, h3, h4⟩ := hc
  refine ⟨?_, mkMissing_ums_other c h1 h4⟩
  simp [escChildren, lookupChild, Ne.symm h1, Ne.symm h2, Ne.symm h3,
    Ne.symm h4]

/-- Witness for C9: the unsupported escape character `x`. -/
theorem claim_C9_witness :
    lookupChild escChildren 'x' = none ∧
    mkMissing (.pystr "unmatched_string") 'x' =
      .mk (some (String.singleton 'x')) (.pystr "unmatched_string") [] :=
  claim_C9.1 'x' (by decide)

/-- Claim C10: classifying the empty lexeme does not raise a lexing
error: the walk ends at the root, whose undetermined marker is `None`
(not a string), so the result is the token `(None, "")`. -/
theorem claim_C10 :
    (freshLD.lookup "").1 = .ok ⟨.pynone, ""⟩ ∧
    (build_lexchar_dict SYMBOL_LUT).tok = .pynone :=
  ⟨rfl, rfl⟩

end Lisp
